import Mathlib

/-!
Verification of the Quake `.map` → VMF conversion core of
`General Tools/QuakeExtractorAndConverter/vmapconverter.py`:
the parser `parse_quake_map` and the generator `generate_vmf_content`.

Embedding conventions:
* IEEE-754 doubles are modelled as exact rationals (`ℚ`); all coordinate
  arithmetic performed by the program (`* 0.75`, negation) is exact on the
  dyadic values it manipulates, so this is faithful up to the usual
  float-as-real idealisation (signed zeros and double rounding of decimal
  literals are below this abstraction).
* Python strings are Lean `String`s; `str.strip`, `str.lower`, `str.upper`
  and the regex character classes are modelled character-wise on ASCII.
* The plane-line regex
  `\(\s*([\d\.\-]+)\s+([\d\.\-]+)\s+([\d\.\-]+)\s*\)` (three times)
  `\s*([^\s]+).*`
  is modelled by a deterministic matcher: every character class in it is
  disjoint from whitespace and from the parentheses, so the greedy match
  never backtracks and longest-token matching is exact.
* `float(...)` applied to a token drawn from `[\d\.\-]+` succeeds exactly
  when the token is an optional leading minus followed by digits with at
  most one decimal point (and at least one digit); this is `pyFloatQ`.
* File reading is the collaborator's job: the parser is given the list of
  lines (or `none` for a missing/unreadable file in `parse_quake_map_io`).
-/

/-! ## Character-level utilities -/

/-- Python whitespace for `str.strip` / regex `\s` (ASCII part). -/
def pyWs (c : Char) : Bool :=
  c == ' ' || c == '\t' || c == '\n' || c == '\r' || c == Char.ofNat 11 || c == Char.ofNat 12

/-- The character class `[\d\.\-]` of the plane regex (ASCII digits). -/
def isNumChar (c : Char) : Bool := c.isDigit || c == '.' || c == '-'

/-- The `\x7b` character (opening brace). -/
def lbrace : Char := Char.ofNat 123

/-- The `\x7d` character (closing brace). -/
def rbrace : Char := Char.ofNat 125

/-- Python `str.strip()`: drop leading and trailing whitespace. -/
def stripChars (cs : List Char) : List Char :=
  ((cs.dropWhile pyWs).reverse.dropWhile pyWs).reverse

/-- Python `str.lower()` (ASCII). -/
def pyLower (s : String) : String := String.mk (s.data.map Char.toLower)

/-- Python `str.upper()` (ASCII). -/
def pyUpper (s : String) : String := String.mk (s.data.map Char.toUpper)

/-- Decimal digit character for `d % 10`. -/
def digitChar (d : ℕ) : Char := Char.ofNat (48 + d % 10)

/-- Digits of `n` in base 10, most significant first (`fuel ≥ n` suffices). -/
def natStrAux : ℕ → ℕ → List Char
  | 0, _ => []
  | f + 1, n => if n = 0 then [] else natStrAux f (n / 10) ++ [digitChar n]

/-- Decimal rendering of a natural number (Python `str` / f-string on int). -/
def natStr (n : ℕ) : String := if n = 0 then "0" else String.mk (natStrAux (n + 1) n)

/-! ## Data model: points, planes, brushes -/

/-- A 3-D point; the program stores Python float triples. -/
structure Point3 where
  x : ℚ
  y : ℚ
  z : ℚ
deriving DecidableEq

/-- One parsed plane record: the per-plane dict of the source, holding the
three captured points under the key plane and the lowercased texture name
under the key texture. -/
structure Plane where
  p1 : Point3
  p2 : Point3
  p3 : Point3
  texture : String
deriving DecidableEq

/-- A brush is the list of its planes, in file order. -/
abbrev Brush := List Plane

/-! ## The plane-line regex, as a deterministic matcher -/

/-- Consume one expected character. -/
def expectChar (c : Char) : List Char → Option (List Char)
  | d :: cs => if d = c then some cs else none
  | [] => none

/-- `\s*`. -/
def skipWs (cs : List Char) : List Char := cs.dropWhile pyWs

/-- `([\d\.\-]+)`: longest nonempty run of number-class characters. -/
def numTok (cs : List Char) : Option (List Char × List Char) :=
  let t := cs.takeWhile isNumChar
  if t.isEmpty then none else some (t, cs.dropWhile isNumChar)

/-- `\s+`: at least one whitespace character, consumed greedily. -/
def wsPlus : List Char → Option (List Char)
  | c :: rest => if pyWs c then some (rest.dropWhile pyWs) else none
  | [] => none

/-- `\(\s*([\d\.\-]+)\s+([\d\.\-]+)\s+([\d\.\-]+)\s*\)`:
one bracketed point triple, returning the three captured tokens. -/
def matchTriple (cs : List Char) : Option ((List Char × List Char × List Char) × List Char) := do
  let cs ← expectChar '(' cs
  let cs := skipWs cs
  let (t1, cs) ← numTok cs
  let cs ← wsPlus cs
  let (t2, cs) ← numTok cs
  let cs ← wsPlus cs
  let (t3, cs) ← numTok cs
  let cs := skipWs cs
  let cs ← expectChar ')' cs
  pure ((t1, t2, t3), cs)

/-- The full plane-line pattern: three triples then `\s*([^\s]+).*`
(the trailing `.*` of an unanchored `re.match` never fails). -/
def planeLineMatch (cs : List Char) :
    Option ((List Char × List Char × List Char) × (List Char × List Char × List Char) ×
      (List Char × List Char × List Char) × List Char) := do
  let (t1, cs1) ← matchTriple cs
  let (t2, cs2) ← matchTriple (skipWs cs1)
  let (t3, cs3) ← matchTriple (skipWs cs2)
  let tex := (skipWs cs3).takeWhile (fun c => !(pyWs c))
  if tex.isEmpty then none else pure (t1, t2, t3, tex)

/-! ## Python `float()` on regex-captured tokens -/

/-- Value of a digit string. -/
def digitsVal (ds : List Char) : ℕ := ds.foldl (fun n c => 10 * n + (c.toNat - 48)) 0

/-- `float()` on an unsigned token over `[\d\.]`: digits with at most one
dot and at least one digit; `none` models a raised `ValueError`.  The value
of `ip.frac` is the rational `(ip*10^k + frac) / 10^k`, built with `mkRat`
to stay kernel-computable. -/
def pyFloatFrac (cs : List Char) : Option ℚ :=
  let ip := cs.takeWhile Char.isDigit
  match cs.dropWhile Char.isDigit with
  | [] => if ip.isEmpty then none else some (digitsVal ip)
  | c :: frac =>
    if c = '.' && frac.all Char.isDigit && !(ip.isEmpty && frac.isEmpty) then
      some (mkRat (digitsVal ip * 10 ^ frac.length + digitsVal frac) (10 ^ frac.length))
    else none

/-- `float()` on a token over `[\d\.\-]`: optional single leading minus. -/
def pyFloatQ : List Char → Option ℚ
  | '-' :: rest => (pyFloatFrac rest).map Neg.neg
  | cs => pyFloatFrac cs

/-- Convert three captured tokens to a point; `none` models a raised error. -/
def mkPoint (t : List Char × List Char × List Char) : Option Point3 :=
  match pyFloatQ t.1, pyFloatQ t.2.1, pyFloatQ t.2.2 with
  | some x, some y, some z => some ⟨x, y, z⟩
  | _, _, _ => none

/-- Outcome of testing one in-entity line against the plane pattern. -/
inductive LineResult where
  | skip : LineResult
  | plane : Plane → LineResult
  | err : LineResult
deriving DecidableEq

/-- Line 57-68 of the source: regex match, float conversion of the nine
coordinates, texture lowercased; `err` is an exception escaping the line. -/
def planeLineResult (cs : List Char) : LineResult :=
  match planeLineMatch cs with
  | none => .skip
  | some (t1, t2, t3, tex) =>
    match mkPoint t1, mkPoint t2, mkPoint t3 with
    | some p1, some p2, some p3 => .plane ⟨p1, p2, p3, pyLower (String.mk tex)⟩
    | _, _, _ => .err

/-! ## The parser state machine (`parse_quake_map`) -/

/-- The loop state of `parse_quake_map`. -/
structure PState where
  brushes : List Brush
  current_brush_planes : List Plane
  in_entity_block : Bool
deriving DecidableEq

/-- State before the first line. -/
def initState : PState := ⟨[], [], false⟩

/-- Leading `//` test (applied after stripping). -/
def isCommentStart : List Char → Bool
  | '/' :: '/' :: _ => true
  | _ => false

/-- One iteration of the parsing loop, on the stripped line.
`Except.error` models an exception propagating out of the loop. -/
def lineStep (st : PState) (cs : List Char) : Except Unit PState :=
  if cs.isEmpty then .ok st
  else if isCommentStart cs then .ok st
  else if cs = [lbrace] then
    if st.in_entity_block = false then .ok ⟨st.brushes, [], true⟩
    else .ok ⟨st.brushes, [], st.in_entity_block⟩
  else if cs = [rbrace] then
    if st.current_brush_planes ≠ [] then
      .ok ⟨st.brushes ++ [st.current_brush_planes], [], st.in_entity_block⟩
    else if st.in_entity_block then .ok ⟨st.brushes, st.current_brush_planes, false⟩
    else .ok st
  else if st.in_entity_block then
    match planeLineResult cs with
    | .skip => .ok st
    | .plane p => .ok ⟨st.brushes, st.current_brush_planes ++ [p], st.in_entity_block⟩
    | .err => .error ()
  else .ok st

/-- One raw line: strip, then step. -/
def parseLine (st : PState) (line : String) : Except Unit PState :=
  lineStep st (stripChars line.data)

/-- The whole loop over the file's lines. -/
def runLines : PState → List String → Except Unit PState
  | st, [] => .ok st
  | st, l :: ls =>
    match parseLine st l with
    | .ok st2 => runLines st2 ls
    | .error e => .error e

/-- End-of-input flush (line 72-73 of the source). -/
def finishState (st : PState) : List Brush :=
  if st.current_brush_planes ≠ [] then st.brushes ++ [st.current_brush_planes] else st.brushes

/-- `parse_quake_map` on the file's lines; any exception inside the `try`
is caught and yields the empty list (line 81-83 of the source). -/
def parse_quake_map (lines : List String) : List Brush :=
  match runLines initState lines with
  | .ok st => finishState st
  | .error _ => []

/-- `parse_quake_map` seen from the caller, with the I/O boundary:
`none` is a missing/unreadable file (`FileNotFoundError` branch).  The
`Bool` is true exactly on the error paths, where the function prints an
`[ERROR]` report before returning the empty list. -/
def parse_quake_map_io : Option (List String) → List Brush × Bool
  | none => ([], true)
  | some lines =>
    match runLines initState lines with
    | .ok st => (finishState st, false)
    | .error _ => ([], true)

/-! ## The generator (`generate_vmf_content`) -/

/-- The scale constant of line 114 of the source: `SCALE_FACTOR = 0.75`
(as `mkRat 3 4`, to stay kernel-computable). -/
def SCALE_FACTOR : ℚ := mkRat 3 4

/-- Line 141-143 of the source: Z-up → Y-up axis swap with uniform scale,
`(x, y, z) ↦ (x*S, z*S, -y*S)`. -/
def transformPoint (p : Point3) : Point3 :=
  ⟨p.x * SCALE_FACTOR, p.z * SCALE_FACTOR, -p.y * SCALE_FACTOR⟩

/-- Round `num/den` (`den ≠ 0`) times `10^6` to an integer, ties to even:
the rounding of CPython percent-6f formatting on the exact value. -/
def rhe6 (num den : ℕ) : ℕ :=
  let m := num * 1000000
  let t := m / den
  let r := m % den
  if 2 * r < den then t
  else if den < 2 * r then t + 1
  else if t % 2 = 0 then t else t + 1

/-- The six fractional digits of `m % 10^6`, zero padded. -/
def sixFracDigits (m : ℕ) : List Char :=
  [digitChar (m / 100000), digitChar (m / 10000), digitChar (m / 1000),
   digitChar (m / 100), digitChar (m / 10), digitChar m]

/-- Python `f"\x7bv:.6f\x7d"`: sign, integer part, dot, exactly six
fractional digits (value rounded half-to-even at the sixth decimal). -/
def fmt6 (q : ℚ) : String :=
  let n := rhe6 q.num.natAbs q.den
  (if q.num < 0 then "-" else "") ++ natStr (n / 1000000) ++ "." ++
    String.mk (sixFracDigits (n % 1000000))

/-- One formatted `(x y z)` group of the `"plane"` property. -/
def fmtPointTriple (p : Point3) : String :=
  "(" ++ fmt6 p.x ++ " " ++ fmt6 p.y ++ " " ++ fmt6 p.z ++ ")"

/-- Line 141-146 of the source: the `"plane"` property line, built from
the three transformed and scaled points. -/
def planeLineOf (pd : Plane) : String :=
  "            \x22plane\x22 \x22" ++ fmtPointTriple (transformPoint pd.p1) ++ " " ++
    fmtPointTriple (transformPoint pd.p2) ++ " " ++ fmtPointTriple (transformPoint pd.p3) ++ "\x22"

/-- Line 150 of the source: the material reference, the stored texture
upper-cased behind the fixed `materials/` namespace. -/
def materialLineOf (pd : Plane) : String :=
  "            \x22material\x22 \x22materials/" ++ pyUpper pd.texture ++ "\x22"

/-- An `"id" "n"` line at the given indentation (the f-strings of lines
108, 123, 130 and 184 of the source). -/
def idLineAt (indent : ℕ) (n : ℕ) : String :=
  String.mk (List.replicate indent ' ') ++ "\x22id\x22 \x22" ++ natStr n ++ "\x22"

/-- Lines 96-103: the fixed `versioninfo` header. -/
def versioninfoLines : List String :=
  ["versioninfo", "\x7b",
   "    \x22mapversion\x22 \x221\x22",
   "    \x22editorversion\x22 \x22400\x22",
   "    \x22editorbuild\x22 \x228000\x22",
   "    \x22formatversion\x22 \x221\x22",
   "    \x22prefab\x22 \x220\x22",
   "\x7d"]

/-- Lines 106-110: the world block opening, id 1 hardcoded. -/
def worldOpenLines : List String :=
  ["world", "\x7b",
   "    \x22id\x22 \x221\x22",
   "    \x22mapversion\x22 \x221\x22",
   "    \x22classname\x22 \x22worldspawn\x22"]

/-- Lines 128-159: one `side` block for one plane, with its allocated id. -/
def sideBlock (cid : ℕ) (pd : Plane) : List String :=
  ["        side", "        \x7b", idLineAt 12 cid, planeLineOf pd, materialLineOf pd,
   "            \x22uaxis\x22 \x22[1 0 0 0] 0.0625\x22",
   "            \x22vaxis\x22 \x22[0 1 0 0] 0.0625\x22",
   "            \x22rotation\x22 \x220\x22",
   "            \x22lightmapscale\x22 \x2216\x22",
   "            \x22smoothing_groups\x22 \x220\x22",
   "        \x7d"]

/-- Lines 162-168: the editor block of a solid. -/
def solidEditorLines : List String :=
  ["        \x22editor\x22", "        \x7b",
   "            \x22color\x22 \x22255 0 0\x22",
   "            \x22visgroupshown\x22 \x221\x22",
   "            \x22visgroupautoshown\x22 \x221\x22",
   "            \x22logicalpos\x22 \x22[0 0]\x22",
   "        \x7d"]

/-- The inner loop of lines 127-159: one side per plane, ids consecutive. -/
def sidesOf : List Plane → ℕ → List String × ℕ
  | [], cid => ([], cid)
  | pd :: rest, cid =>
    let r := sidesOf rest (cid + 1)
    (sideBlock cid pd ++ r.1, r.2)

/-- Lines 121-169: one `solid` block: its id, then its sides, then the
editor block. -/
def solidOf (b : Brush) (cid : ℕ) : List String × ℕ :=
  let r := sidesOf b (cid + 1)
  (["    solid", "    \x7b", idLineAt 8 cid] ++ r.1 ++ solidEditorLines ++ ["    \x7d"], r.2)

/-- The outer loop of lines 120-169 over all brushes. -/
def solidsOf : List Brush → ℕ → List String × ℕ
  | [], cid => ([], cid)
  | b :: bs, cid =>
    let r := solidOf b cid
    let rr := solidsOf bs r.2
    (r.1 ++ rr.1, rr.2)

/-- Lines 172-178: the editor block of the world. -/
def worldEditorLines : List String :=
  ["    \x22editor\x22", "    \x7b",
   "        \x22color\x22 \x22255 0 0\x22",
   "        \x22visgroupshown\x22 \x221\x22",
   "        \x22visgroupautoshown\x22 \x221\x22",
   "        \x22logicalpos\x22 \x22[0 0]\x22",
   "    \x7d"]

/-- Lines 182-196: the trailing `info_player_start` entity, consuming one
more id. -/
def entityLines (eid : ℕ) : List String :=
  ["entity", "\x7b", idLineAt 4 eid,
   "    \x22classname\x22 \x22info_player_start\x22",
   "    \x22origin\x22 \x220 0 64\x22",
   "    \x22angles\x22 \x220 0 0\x22",
   "    \x22editor\x22", "    \x7b",
   "        \x22color\x22 \x22255 255 0\x22",
   "        \x22visgroupshown\x22 \x221\x22",
   "        \x22visgroupautoshown\x22 \x221\x22",
   "        \x22logicalpos\x22 \x22[0 0]\x22",
   "    \x7d", "\x7d"]

/-- Lines 199-201: the empty `hidden` trailer block. -/
def hiddenLines : List String := ["hidden", "\x7b", "\x7d"]

/-- The full line sequence of `generate_vmf_content`, the id counter
seeded with 2 (line 117). -/
def vmfLines (map_data : List Brush) : List String :=
  let r := solidsOf map_data 2
  versioninfoLines ++ worldOpenLines ++ r.1 ++ worldEditorLines ++ ["\x7d"] ++
    entityLines r.2 ++ hiddenLines

/-- `generate_vmf_content`: the joined document text (line 203). -/
def generate_vmf_content (map_data : List Brush) : String :=
  String.intercalate "\n" (vmfLines map_data)

/-! ## The per-file pipeline and the batch loop -/

/-- One unit of work of `convert_folder` (lines 332-335): parse, then
generate only when at least one brush was found. -/
def unitOutput (lines : List String) : Option String :=
  let brushes := parse_quake_map lines
  if brushes = [] then none else some (generate_vmf_content brushes)

/-- The batch loop of `convert_folder` over the `.map` files found: each
iteration rebinds its locals, so the fold carries only the outputs. -/
def convertFold (files : List (List String)) : List (Option String) :=
  files.foldl (fun acc f => acc ++ [unitOutput f]) []

/-! ## Specification-side definitions, for comparison -/

/-- Follows the words of the spec's ID-allocation contract: a counter
starts at 2; for each brush, one id for its `solid` (indent 8), then one
id per plane for its `side`s (indent 12), in file order; returns the
`(indent, id)` pairs and the final counter value. -/
def specIdAlloc : List Brush → ℕ → List (ℕ × ℕ) × ℕ
  | [], c => ([], c)
  | b :: bs, c =>
    let rest := specIdAlloc bs (c + 1 + b.length)
    ((8, c) :: ((List.range' (c + 1) b.length).map fun i => (12, i)) ++ rest.1, rest.2)

/-- The id lines the spec predicts for a whole document: the world id 1,
the solid/side ids from 2 on, then one more id for the entity trailer. -/
def specIdLines (bs : List Brush) : List String :=
  let r := specIdAlloc bs 2
  idLineAt 4 1 :: (r.1.map fun p => idLineAt p.1 p.2) ++ [idLineAt 4 r.2]

/-- Total number of ids the spec says one document allocates after the
world's id 1: one per solid, one per side, one for the entity. -/
def specAllocCount (bs : List Brush) : ℕ := (bs.map fun b => 1 + b.length).sum + 1

/-- Recognizer for `"id"` property lines (first non-space content). -/
def idMark : List Char → Bool
  | a :: b :: c :: d :: _ => a == '\x22' && b == 'i' && c == 'd' && d == '\x22'
  | _ => false

/-- A line holding an `"id"` property. -/
def isIdLine (s : String) : Bool := idMark (s.data.dropWhile fun c => c == ' ')

/-- Number of characters after the last `.` of a formatted number. -/
def fracDigitCount (s : String) : ℕ :=
  (s.data.reverse.takeWhile fun c => c != '.').length

/-! ## Parser lemmas -/

theorem expectChar_eq (c : Char) (cs rest : List Char) (h : expectChar c cs = some rest) :
    cs = c :: rest := by
  cases cs with
  | nil => exact absurd h (by simp [expectChar])
  | cons d ds =>
    by_cases hd : d = c
    · have h2 : ds = rest := by simpa [expectChar, hd] using h
      rw [hd, h2]
    · exact absurd h (by simp [expectChar, hd])

theorem matchTriple_head (cs : List Char)
    (r : (List Char × List Char × List Char) × List Char)
    (h : matchTriple cs = some r) : ∃ rest, cs = '(' :: rest := by
  unfold matchTriple at h
  cases he : expectChar '(' cs with
  | none => rw [he] at h; simp at h
  | some cs1 => exact ⟨cs1, expectChar_eq _ _ _ he⟩

theorem planeLineMatch_head (cs : List Char)
    (m : (List Char × List Char × List Char) × (List Char × List Char × List Char) ×
      (List Char × List Char × List Char) × List Char)
    (h : planeLineMatch cs = some m) : ∃ rest, cs = '(' :: rest := by
  unfold planeLineMatch at h
  cases ht : matchTriple cs with
  | none => rw [ht] at h; simp at h
  | some r => exact matchTriple_head cs r ht

theorem planeLineResult_head (cs : List Char) (h : planeLineResult cs ≠ .skip) :
    ∃ rest, cs = '(' :: rest := by
  unfold planeLineResult at h
  cases hm : planeLineMatch cs with
  | none => rw [hm] at h; simp at h
  | some m => exact planeLineMatch_head cs m hm

theorem paren_notspecial (rest : List Char) :
    (('(' :: rest).isEmpty = false) ∧ (isCommentStart ('(' :: rest) = false) ∧
      ('(' :: rest) ≠ [lbrace] ∧ ('(' :: rest) ≠ [rbrace] := by
  refine ⟨rfl, rfl, fun hh => ?_, fun hh => ?_⟩
  · injection hh with h1 _; exact absurd h1 (by decide)
  · injection hh with h1 _; exact absurd h1 (by decide)

theorem lineStep_plane (st : PState) (cs : List Char) (p : Plane)
    (he : st.in_entity_block = true) (hp : planeLineResult cs = .plane p) :
    lineStep st cs = .ok ⟨st.brushes, st.current_brush_planes ++ [p], st.in_entity_block⟩ := by
  obtain ⟨rest, rfl⟩ := planeLineResult_head cs (by rw [hp]; intro hh; cases hh)
  obtain ⟨h1, h2, h3, h4⟩ := paren_notspecial rest
  unfold lineStep
  rw [if_neg (by rw [h1]; intro hh; cases hh), if_neg (by rw [h2]; intro hh; cases hh),
    if_neg h3, if_neg h4, if_pos he, hp]

theorem lineStep_err (st : PState) (cs : List Char)
    (he : st.in_entity_block = true) (hp : planeLineResult cs = .err) :
    lineStep st cs = .error () := by
  obtain ⟨rest, rfl⟩ := planeLineResult_head cs (by rw [hp]; intro hh; cases hh)
  obtain ⟨h1, h2, h3, h4⟩ := paren_notspecial rest
  unfold lineStep
  rw [if_neg (by rw [h1]; intro hh; cases hh), if_neg (by rw [h2]; intro hh; cases hh),
    if_neg h3, if_neg h4, if_pos he, hp]

theorem lineStep_skip (st : PState) (cs : List Char)
    (h1 : planeLineMatch cs = none) (h2 : cs ≠ [lbrace]) (h3 : cs ≠ [rbrace]) :
    lineStep st cs = .ok st := by
  unfold lineStep
  by_cases he : cs.isEmpty = true
  · rw [if_pos he]
  · rw [if_neg he]
    by_cases hc : isCommentStart cs = true
    · rw [if_pos hc]
    · rw [if_neg hc, if_neg h2, if_neg h3]
      by_cases hent : st.in_entity_block = true
      · rw [if_pos hent]
        have hres : planeLineResult cs = .skip := by unfold planeLineResult; rw [h1]
        rw [hres]
      · rw [if_neg hent]

theorem lineStep_lbrace (st : PState) : lineStep st [lbrace] = .ok ⟨st.brushes, [], true⟩ := by
  unfold lineStep
  rw [if_neg (by intro hh; cases hh), if_neg (by intro hh; cases hh), if_pos rfl]
  by_cases hent : st.in_entity_block = false
  · rw [if_pos hent]
  · rw [if_neg hent]
    have : st.in_entity_block = true := by
      cases h : st.in_entity_block
      · exact absurd h hent
      · rfl
    rw [this]

theorem lineStep_rbrace_flush (st : PState) (h : st.current_brush_planes ≠ []) :
    lineStep st [rbrace] =
      .ok ⟨st.brushes ++ [st.current_brush_planes], [], st.in_entity_block⟩ := by
  unfold lineStep
  rw [if_neg (by intro hh; cases hh), if_neg (by intro hh; cases hh),
    if_neg (by intro hh; injection hh with hh1 _; exact absurd hh1 (by decide)),
    if_pos rfl, if_pos h]

theorem lineStep_rbrace_close (st : PState) (h : st.current_brush_planes = [])
    (h2 : st.in_entity_block = true) :
    lineStep st [rbrace] = .ok ⟨st.brushes, st.current_brush_planes, false⟩ := by
  unfold lineStep
  rw [if_neg (by intro hh; cases hh), if_neg (by intro hh; cases hh),
    if_neg (by intro hh; injection hh with hh1 _; exact absurd hh1 (by decide)),
    if_pos rfl, if_neg (by rw [h]; intro hh; exact hh rfl), if_pos h2]

theorem runLines_cons_ok (st st2 : PState) (l : String) (ls : List String)
    (h : parseLine st l = .ok st2) : runLines st (l :: ls) = runLines st2 ls := by
  have he : runLines st (l :: ls) =
      match parseLine st l with
      | .ok st2 => runLines st2 ls
      | .error e => .error e := rfl
  rw [he, h]

theorem runLines_cons_err (st : PState) (l : String) (ls : List String)
    (h : parseLine st l = .error ()) : runLines st (l :: ls) = .error () := by
  have he : runLines st (l :: ls) =
      match parseLine st l with
      | .ok st2 => runLines st2 ls
      | .error e => .error e := rfl
  rw [he, h]

theorem runLines_append (st : PState) (xs ys : List String) :
    runLines st (xs ++ ys) =
      match runLines st xs with
      | .ok st2 => runLines st2 ys
      | .error e => .error e := by
  induction xs generalizing st with
  | nil => rfl
  | cons l ls ih =>
    simp only [List.cons_append, runLines]
    cases parseLine st l with
    | ok st2 => exact ih st2
    | error e => rfl

theorem parse_of_runLines_ok (lines : List String) (st : PState)
    (h : runLines initState lines = .ok st) : parse_quake_map lines = finishState st := by
  unfold parse_quake_map
  rw [h]

theorem parse_of_runLines_err (lines : List String) (e : Unit)
    (h : runLines initState lines = .error e) : parse_quake_map lines = [] := by
  unfold parse_quake_map
  rw [h]

theorem runLines_planes (ls : List String) (ps : List Plane) (bs : List Brush) (cur : List Plane)
    (hm : ls.map (fun l => planeLineResult (stripChars l.data)) = ps.map LineResult.plane) :
    runLines ⟨bs, cur, true⟩ ls = .ok ⟨bs, cur ++ ps, true⟩ := by
  induction ls generalizing ps cur with
  | nil =>
    have hps : ps = [] := by
      cases ps with
      | nil => rfl
      | cons p ps2 => simp at hm
    subst hps
    simp [runLines]
  | cons l ls ih =>
    cases ps with
    | nil => simp at hm
    | cons p ps2 =>
      simp only [List.map_cons, List.cons.injEq] at hm
      obtain ⟨hm1, hm2⟩ := hm
      have hstep := lineStep_plane ⟨bs, cur, true⟩ (stripChars l.data) p rfl hm1
      simp only [runLines, parseLine, hstep]
      rw [ih ps2 (cur ++ [p]) hm2]
      simp

theorem strip_lbrace : stripChars ("\x7b".data) = [lbrace] := by decide

theorem strip_rbrace : stripChars ("\x7d".data) = [rbrace] := by decide

theorem parse_insert_skip (l : String) (pre post : List String)
    (h1 : planeLineMatch (stripChars l.data) = none)
    (h2 : stripChars l.data ≠ [lbrace]) (h3 : stripChars l.data ≠ [rbrace]) :
    parse_quake_map (pre ++ l :: post) = parse_quake_map (pre ++ post) := by
  have key : ∀ st : PState, runLines st (l :: post) = runLines st post := fun st =>
    runLines_cons_ok st st l post (lineStep_skip st (stripChars l.data) h1 h2 h3)
  have main : runLines initState (pre ++ l :: post) = runLines initState (pre ++ post) := by
    rw [runLines_append, runLines_append]
    cases hr : runLines initState pre with
    | error e => rfl
    | ok st => exact key st
  unfold parse_quake_map
  rw [main]

theorem parse_abort_err (pre post : List String) (l : String) (st : PState)
    (h1 : runLines initState pre = .ok st)
    (h2 : st.in_entity_block = true)
    (h3 : planeLineResult (stripChars l.data) = .err) :
    parse_quake_map (pre ++ l :: post) = [] := by
  have main : runLines initState (pre ++ l :: post) = .error () := by
    rw [runLines_append, h1]
    exact runLines_cons_err st l post (lineStep_err st (stripChars l.data) h2 h3)
  exact parse_of_runLines_err _ () main

theorem parseLine_open (st : PState) : parseLine st "\x7b" = .ok ⟨st.brushes, [], true⟩ := by
  show lineStep st (stripChars ("\x7b".data)) = _
  rw [strip_lbrace]
  exact lineStep_lbrace st

theorem parse_one_brush (ls : List String) (ps : List Plane)
    (hm : ls.map (fun l => planeLineResult (stripChars l.data)) = ps.map LineResult.plane)
    (hne : ps ≠ []) :
    parse_quake_map ("\x7b" :: "\x7b" :: ls ++ ["\x7d", "\x7d"]) = [ps] := by
  have s3 : parseLine (⟨[], [] ++ ps, true⟩ : PState) "\x7d" =
      .ok ⟨[] ++ [[] ++ ps], [], true⟩ := by
    show lineStep _ (stripChars ("\x7d".data)) = _
    rw [strip_rbrace]
    exact lineStep_rbrace_flush _ (by simpa using hne)
  have s4 : parseLine (⟨[] ++ [[] ++ ps], [], true⟩ : PState) "\x7d" =
      .ok ⟨[] ++ [[] ++ ps], [], false⟩ := by
    show lineStep _ (stripChars ("\x7d".data)) = _
    rw [strip_rbrace]
    exact lineStep_rbrace_close _ rfl rfl
  have o1 : parseLine initState "\x7b" = .ok ⟨[], [], true⟩ := parseLine_open initState
  have o2 : parseLine (⟨[], [], true⟩ : PState) "\x7b" = .ok ⟨[], [], true⟩ :=
    parseLine_open ⟨[], [], true⟩
  have e1 : runLines initState ("\x7b" :: "\x7b" :: ls ++ ["\x7d", "\x7d"]) =
      runLines ⟨[], [], true⟩ ("\x7b" :: ls ++ ["\x7d", "\x7d"]) :=
    runLines_cons_ok _ _ _ _ o1
  have e2 : runLines (⟨[], [], true⟩ : PState) ("\x7b" :: ls ++ ["\x7d", "\x7d"]) =
      runLines ⟨[], [], true⟩ (ls ++ ["\x7d", "\x7d"]) :=
    runLines_cons_ok _ _ _ _ o2
  have e3 : runLines (⟨[], [], true⟩ : PState) (ls ++ ["\x7d", "\x7d"]) =
      runLines ⟨[], [] ++ ps, true⟩ ["\x7d", "\x7d"] := by
    rw [runLines_append]
    rw [runLines_planes ls ps [] [] hm]
  have e4 : runLines (⟨[], [] ++ ps, true⟩ : PState) ["\x7d", "\x7d"] =
      runLines ⟨[] ++ [[] ++ ps], [], true⟩ ["\x7d"] :=
    runLines_cons_ok _ _ _ _ s3
  have e5 : runLines (⟨[] ++ [[] ++ ps], [], true⟩ : PState) ["\x7d"] =
      runLines ⟨[] ++ [[] ++ ps], [], false⟩ [] :=
    runLines_cons_ok _ _ _ _ s4
  have hrun : runLines initState ("\x7b" :: "\x7b" :: ls ++ ["\x7d", "\x7d"]) =
      .ok ⟨[] ++ [[] ++ ps], [], false⟩ :=
    ((((e1.trans e2).trans e3).trans e4).trans e5).trans rfl
  rw [parse_of_runLines_ok _ _ hrun]
  simp [finishState]

theorem lineStep_brushes (st st2 : PState) (cs : List Char) (h : lineStep st cs = .ok st2) :
    st2.brushes = st.brushes ∨
      (st.current_brush_planes ≠ [] ∧
        st2.brushes = st.brushes ++ [st.current_brush_planes]) := by
  unfold lineStep at h
  by_cases he : cs.isEmpty = true
  · rw [if_pos he] at h; injection h with h; rw [← h]; exact Or.inl rfl
  · rw [if_neg he] at h
    by_cases hc : isCommentStart cs = true
    · rw [if_pos hc] at h; injection h with h; rw [← h]; exact Or.inl rfl
    · rw [if_neg hc] at h
      by_cases hl : cs = [lbrace]
      · rw [if_pos hl] at h
        by_cases hent : st.in_entity_block = false
        · rw [if_pos hent] at h; injection h with h; rw [← h]; exact Or.inl rfl
        · rw [if_neg hent] at h; injection h with h; rw [← h]; exact Or.inl rfl
      · rw [if_neg hl] at h
        by_cases hrb : cs = [rbrace]
        · rw [if_pos hrb] at h
          by_cases hcur : st.current_brush_planes ≠ []
          · rw [if_pos hcur] at h; injection h with h; rw [← h]
            exact Or.inr ⟨hcur, rfl⟩
          · rw [if_neg hcur] at h
            by_cases hent : st.in_entity_block = true
            · rw [if_pos hent] at h; injection h with h; rw [← h]; exact Or.inl rfl
            · rw [if_neg hent] at h; injection h with h; rw [← h]; exact Or.inl rfl
        · rw [if_neg hrb] at h
          by_cases hent : st.in_entity_block = true
          · rw [if_pos hent] at h
            cases hpl : planeLineResult cs with
            | skip => rw [hpl] at h; injection h with h; rw [← h]; exact Or.inl rfl
            | plane p => rw [hpl] at h; injection h with h; rw [← h]; exact Or.inl rfl
            | err => rw [hpl] at h; cases h
          · rw [if_neg hent] at h; injection h with h; rw [← h]; exact Or.inl rfl

theorem lineStep_good (st st2 : PState) (cs : List Char)
    (hg : ∀ b ∈ st.brushes, b ≠ []) (h : lineStep st cs = .ok st2) :
    ∀ b ∈ st2.brushes, b ≠ [] := by
  rcases lineStep_brushes st st2 cs h with hb | ⟨hne, hb⟩
  · rw [hb]; exact hg
  · rw [hb]
    intro b hbm
    rcases List.mem_append.mp hbm with hm | hm
    · exact hg b hm
    · rw [List.mem_singleton] at hm; rw [hm]; exact hne

theorem runLines_good (ls : List String) (st st2 : PState)
    (h : runLines st ls = .ok st2) (hg : ∀ b ∈ st.brushes, b ≠ []) :
    ∀ b ∈ st2.brushes, b ≠ [] := by
  induction ls generalizing st with
  | nil =>
    unfold runLines at h
    injection h with h; rw [← h]; exact hg
  | cons l ls ih =>
    unfold runLines at h
    cases hp : parseLine st l with
    | error e => rw [hp] at h; cases h
    | ok stm =>
      rw [hp] at h
      exact ih stm h (lineStep_good st stm _ hg hp)

/-! ## Claim theorems: parser -/

/-- C1: an input whose well-formed plane lines are grouped inside one
brush block parses to exactly one Brush holding exactly those Planes, in
file order, with each parsed record kept as captured. -/
theorem C1_one_brush_in_order (ls : List String) (ps : List Plane)
    (hm : ls.map (fun l => planeLineResult (stripChars l.data)) = ps.map LineResult.plane)
    (hne : ps ≠ []) :
    parse_quake_map ("\x7b" :: "\x7b" :: ls ++ ["\x7d", "\x7d"]) = [ps] :=
  parse_one_brush ls ps hm hne

theorem C1_witness :
    parse_quake_map ["\x7b", "\x7b",
      "( -128 -128 0 ) ( 128 -128 0 ) ( -128 128 0 ) WALL_TEX [ 1 0 0 0 ] [ 0 1 0 0 ] 0 1 1",
      "( -128 -128 128 ) ( -128 128 128 ) ( 128 -128 128 ) CEILING_TEX [ 1 0 0 0 ] [ 0 1 0 0 ] 0 1 1",
      "\x7d", "\x7d"] =
    [[⟨⟨-128, -128, 0⟩, ⟨128, -128, 0⟩, ⟨-128, 128, 0⟩, "wall_tex"⟩,
      ⟨⟨-128, -128, 128⟩, ⟨-128, 128, 128⟩, ⟨128, -128, 128⟩, "ceiling_tex"⟩]] :=
  C1_one_brush_in_order
    ["( -128 -128 0 ) ( 128 -128 0 ) ( -128 128 0 ) WALL_TEX [ 1 0 0 0 ] [ 0 1 0 0 ] 0 1 1",
     "( -128 -128 128 ) ( -128 128 128 ) ( 128 -128 128 ) CEILING_TEX [ 1 0 0 0 ] [ 0 1 0 0 ] 0 1 1"]
    [⟨⟨-128, -128, 0⟩, ⟨128, -128, 0⟩, ⟨-128, 128, 0⟩, "wall_tex"⟩,
     ⟨⟨-128, -128, 128⟩, ⟨-128, 128, 128⟩, ⟨128, -128, 128⟩, "ceiling_tex"⟩]
    (by decide) (by decide)

/-- C7: a truncated input (entity and brush blocks opened, never closed)
still flushes the accumulated planes as one final Brush at end of input. -/
theorem C7_truncated_flush (ls : List String) (ps : List Plane)
    (hm : ls.map (fun l => planeLineResult (stripChars l.data)) = ps.map LineResult.plane)
    (hne : ps ≠ []) :
    parse_quake_map ("\x7b" :: "\x7b" :: ls) = [ps] := by
  have o1 : parseLine initState "\x7b" = .ok ⟨[], [], true⟩ := parseLine_open initState
  have o2 : parseLine (⟨[], [], true⟩ : PState) "\x7b" = .ok ⟨[], [], true⟩ :=
    parseLine_open ⟨[], [], true⟩
  have e1 : runLines initState ("\x7b" :: "\x7b" :: ls) =
      runLines ⟨[], [], true⟩ ("\x7b" :: ls) :=
    runLines_cons_ok _ _ _ _ o1
  have e2 : runLines (⟨[], [], true⟩ : PState) ("\x7b" :: ls) =
      runLines ⟨[], [], true⟩ ls :=
    runLines_cons_ok _ _ _ _ o2
  have hrun : runLines initState ("\x7b" :: "\x7b" :: ls) = .ok ⟨[], [] ++ ps, true⟩ :=
    (e1.trans e2).trans (runLines_planes ls ps [] [] hm)
  rw [parse_of_runLines_ok _ _ hrun]
  simp [finishState, hne]

theorem C7_witness :
    parse_quake_map ["\x7b", "\x7b",
      "( 0 0 0 ) ( 16 0 0 ) ( 0 16 0 ) FLOOR_TEX [ 1 0 0 0 ] [ 0 1 0 0 ] 0 1 1"] =
    [[⟨⟨0, 0, 0⟩, ⟨16, 0, 0⟩, ⟨0, 16, 0⟩, "floor_tex"⟩]] :=
  C7_truncated_flush
    ["( 0 0 0 ) ( 16 0 0 ) ( 0 16 0 ) FLOOR_TEX [ 1 0 0 0 ] [ 0 1 0 0 ] 0 1 1"]
    [⟨⟨0, 0, 0⟩, ⟨16, 0, 0⟩, ⟨0, 16, 0⟩, "floor_tex"⟩]
    (by decide) (by decide)

/-- C5: a line the plane pattern does not match (fewer than three
bracketed point triples, or no texture token) contributes zero Planes and
leaves the whole parse unchanged, wherever it stands. -/
theorem C5_nonmatching_line_inert (l : String) (pre post : List String)
    (h1 : planeLineMatch (stripChars l.data) = none)
    (h2 : stripChars l.data ≠ [lbrace]) (h3 : stripChars l.data ≠ [rbrace]) :
    parse_quake_map (pre ++ l :: post) = parse_quake_map (pre ++ post) :=
  parse_insert_skip l pre post h1 h2 h3

theorem C5_witness :
    parse_quake_map (["\x7b", "\x7b",
        "( 0 0 0 ) ( 16 0 0 ) ( 0 16 0 ) WALL_TEX"] ++
      "( 0 0 0 ) ( 16 0 0 ) ( 0 16 0 )" ::
      ["( 0 0 16 ) ( 16 0 16 ) ( 0 16 16 ) SKY_TEX", "\x7d", "\x7d"]) =
    parse_quake_map (["\x7b", "\x7b",
        "( 0 0 0 ) ( 16 0 0 ) ( 0 16 0 ) WALL_TEX"] ++
      ["( 0 0 16 ) ( 16 0 16 ) ( 0 16 16 ) SKY_TEX", "\x7d", "\x7d"]) :=
  C5_nonmatching_line_inert "( 0 0 0 ) ( 16 0 0 ) ( 0 16 0 )"
    ["\x7b", "\x7b", "( 0 0 0 ) ( 16 0 0 ) ( 0 16 0 ) WALL_TEX"]
    ["( 0 0 16 ) ( 16 0 16 ) ( 0 16 16 ) SKY_TEX", "\x7d", "\x7d"]
    rfl (by decide) (by decide)

/-- C6: a line matching the plane pattern whose coordinate token is not a
valid float (such as `1.2.3`) raises; the exception is caught and the
whole parse returns the empty sequence, discarding every brush and plane
accumulated earlier — all-or-nothing, never a partial prefix. -/
theorem C6_exception_all_or_nothing (pre post : List String) (l : String) (st : PState)
    (h1 : runLines initState pre = .ok st)
    (h2 : st.in_entity_block = true)
    (h3 : planeLineResult (stripChars l.data) = .err) :
    parse_quake_map (pre ++ l :: post) = [] :=
  parse_abort_err pre post l st h1 h2 h3

theorem C6_witness :
    parse_quake_map (["\x7b", "\x7b",
        "( 0 0 0 ) ( 16 0 0 ) ( 0 16 0 ) WALL_TEX", "\x7d", "\x7b"] ++
      "( 1.2.3 0 0 ) ( 0 0 0 ) ( 0 0 0 ) BAD_TEX" :: ["\x7d", "\x7d"]) = [] :=
  C6_exception_all_or_nothing
    ["\x7b", "\x7b", "( 0 0 0 ) ( 16 0 0 ) ( 0 16 0 ) WALL_TEX", "\x7d", "\x7b"]
    ["\x7d", "\x7d"]
    "( 1.2.3 0 0 ) ( 0 0 0 ) ( 0 0 0 ) BAD_TEX"
    ⟨[[⟨⟨0, 0, 0⟩, ⟨16, 0, 0⟩, ⟨0, 16, 0⟩, "wall_tex"⟩]], [], true⟩
    rfl rfl rfl

/-- C8: every Brush ever returned by `parse_quake_map` holds at least one
Plane: a brush is appended (at a closing brace or at end of input) only
when the accumulator is non-empty. -/
theorem C8_no_empty_brush (lines : List String) (b : Brush)
    (hb : b ∈ parse_quake_map lines) : b ≠ [] := by
  cases hr : runLines initState lines with
  | error e => rw [parse_of_runLines_err lines e hr] at hb; simp at hb
  | ok st =>
    rw [parse_of_runLines_ok lines st hr] at hb
    have hg : ∀ x ∈ st.brushes, x ≠ [] :=
      runLines_good lines initState st hr (by intro x hx; simp [initState] at hx)
    unfold finishState at hb
    by_cases hc : st.current_brush_planes ≠ []
    · rw [if_pos hc] at hb
      rcases List.mem_append.mp hb with hm | hm
      · exact hg b hm
      · rw [List.mem_singleton] at hm; rw [hm]; exact hc
    · rw [if_neg hc] at hb
      exact hg b hb

theorem C8_witness :
    ([⟨⟨0, 0, 0⟩, ⟨16, 0, 0⟩, ⟨0, 16, 0⟩, "wall_tex"⟩] : Brush) ≠ [] :=
  C8_no_empty_brush
    ["\x7b", "\x7b", "( 0 0 0 ) ( 16 0 0 ) ( 0 16 0 ) WALL_TEX", "\x7d", "\x7d"]
    [⟨⟨0, 0, 0⟩, ⟨16, 0, 0⟩, ⟨0, 16, 0⟩, "wall_tex"⟩]
    (by decide)

/-! ## Claim theorems: error taxonomy (C4) -/

/-- C4 counterexample: the claim says every unparsable line is silently
skipped with the rest of the file still processed; but a line matching the
plane pattern whose token `1.2.3` fails float conversion makes the whole
parse return the empty sequence, discarding the already-complete brush
that the same input without the bad line yields. -/
theorem C4_counterexample :
    parse_quake_map ["\x7b", "\x7b",
      "( 0 0 0 ) ( 16 0 0 ) ( 0 16 0 ) WALL_TEX",
      "( 1.2.3 0 0 ) ( 0 0 0 ) ( 0 0 0 ) TEX",
      "\x7d", "\x7d"] = [] ∧
    parse_quake_map ["\x7b", "\x7b",
      "( 0 0 0 ) ( 16 0 0 ) ( 0 16 0 ) WALL_TEX",
      "\x7d", "\x7d"] =
      [[⟨⟨0, 0, 0⟩, ⟨16, 0, 0⟩, ⟨0, 16, 0⟩, "wall_tex"⟩]] :=
  ⟨by decide, by decide⟩

/-- C4 (amended): a line the plane pattern does not match is silently
skipped and the rest of the file is processed; a missing file or I/O
failure yields the empty sequence with the error reported (a condition
distinct from an empty parse of a present file); but a line matching the
pattern whose coordinate token is rejected by float conversion aborts the
parse and yields the empty sequence. -/
theorem C4_amended_lenient_parse :
    (∀ (l : String) (pre post : List String),
        planeLineMatch (stripChars l.data) = none →
        stripChars l.data ≠ [lbrace] →
        stripChars l.data ≠ [rbrace] →
        parse_quake_map (pre ++ l :: post) = parse_quake_map (pre ++ post)) ∧
    (∀ (pre post : List String) (l : String) (st : PState),
        runLines initState pre = .ok st →
        st.in_entity_block = true →
        planeLineResult (stripChars l.data) = .err →
        parse_quake_map (pre ++ l :: post) = []) ∧
    parse_quake_map_io none = ([], true) ∧
    parse_quake_map_io (some []) = ([], false) :=
  ⟨fun l pre post h1 h2 h3 => parse_insert_skip l pre post h1 h2 h3,
   fun pre post l st h1 h2 h3 => parse_abort_err pre post l st h1 h2 h3,
   rfl, rfl⟩

theorem C4_amended_witness :
    parse_quake_map ["\x7b", "\x7b", "\x22classname\x22 \x22worldspawn\x22", "\x7d", "\x7d"] =
      parse_quake_map ["\x7b", "\x7b", "\x7d", "\x7d"] :=
  C4_amended_lenient_parse.1 "\x22classname\x22 \x22worldspawn\x22" ["\x7b", "\x7b"]
    ["\x7d", "\x7d"] rfl (by decide) (by decide)

/-! ## Claim theorems: texture case normalization (C9) -/

/-- C9: the texture stored by the parser is the captured token lowercased,
and the material reference the generator emits for that plane upper-cases
the stored name behind the fixed `materials/` namespace — the original
case is normalized twice, not round-tripped. -/
theorem C9_texture_case_normalized (s : String)
    (t1 t2 t3 : List Char × List Char × List Char) (tex : List Char) (p : Plane)
    (h1 : planeLineMatch (stripChars s.data) = some (t1, t2, t3, tex))
    (h2 : planeLineResult (stripChars s.data) = .plane p) :
    p.texture = pyLower (String.mk tex) ∧
      materialLineOf p = "            \x22material\x22 \x22materials/" ++
        pyUpper (pyLower (String.mk tex)) ++ "\x22" := by
  have hr : planeLineResult (stripChars s.data) =
      match mkPoint t1, mkPoint t2, mkPoint t3 with
      | some p1, some p2, some p3 => .plane ⟨p1, p2, p3, pyLower (String.mk tex)⟩
      | _, _, _ => .err := by
    unfold planeLineResult
    rw [h1]
  rw [hr] at h2
  cases m1 : mkPoint t1 with
  | none => rw [m1] at h2; simp at h2
  | some q1 =>
    cases m2 : mkPoint t2 with
    | none => rw [m1, m2] at h2; simp at h2
    | some q2 =>
      cases m3 : mkPoint t3 with
      | none => rw [m1, m2, m3] at h2; simp at h2
      | some q3 =>
        rw [m1, m2, m3] at h2
        simp only [LineResult.plane.injEq] at h2
        rw [← h2]
        exact ⟨rfl, rfl⟩

theorem C9_witness :
    (⟨⟨0, 0, 0⟩, ⟨16, 0, 0⟩, ⟨0, 16, 0⟩, "wall_tex"⟩ : Plane).texture =
      pyLower (String.mk ['W', 'a', 'l', 'l', '_', 'T', 'e', 'x']) ∧
      materialLineOf ⟨⟨0, 0, 0⟩, ⟨16, 0, 0⟩, ⟨0, 16, 0⟩, "wall_tex"⟩ =
        "            \x22material\x22 \x22materials/" ++
          pyUpper (pyLower (String.mk ['W', 'a', 'l', 'l', '_', 'T', 'e', 'x'])) ++ "\x22" :=
  C9_texture_case_normalized "( 0 0 0 ) ( 16 0 0 ) ( 0 16 0 ) Wall_Tex"
    (['0'], ['0'], ['0']) (['1', '6'], ['0'], ['0']) (['0'], ['1', '6'], ['0'])
    ['W', 'a', 'l', 'l', '_', 'T', 'e', 'x']
    ⟨⟨0, 0, 0⟩, ⟨16, 0, 0⟩, ⟨0, 16, 0⟩, "wall_tex"⟩ rfl rfl

/-! ## Generator lemmas -/

theorem str_data_append (s t : String) : (s ++ t).data = s.data ++ t.data := rfl

theorem dropWhile_space_replicate (n : ℕ) (l : List Char) :
    (List.replicate n ' ' ++ l).dropWhile (fun c => c == ' ') =
      l.dropWhile (fun c => c == ' ') := by
  induction n with
  | zero => rfl
  | succ k ih => simp [List.replicate_succ, ih]

theorem isIdLine_idLineAt (ind n : ℕ) : isIdLine (idLineAt ind n) = true := by
  unfold isIdLine idLineAt
  obtain ⟨t⟩ := natStr n
  have hd : (String.mk (List.replicate ind ' ') ++ "\x22id\x22 \x22" ++ String.mk t ++
      "\x22").data = List.replicate ind ' ' ++
        ('\x22' :: 'i' :: 'd' :: '\x22' :: ' ' :: '\x22' :: (t ++ ['\x22'])) := by
    simp [str_data_append]
  rw [hd, dropWhile_space_replicate]
  rfl

theorem isIdLine_planeLineOf (pd : Plane) : isIdLine (planeLineOf pd) = false := by
  unfold planeLineOf
  obtain ⟨l1⟩ := fmtPointTriple (transformPoint pd.p1)
  obtain ⟨l2⟩ := fmtPointTriple (transformPoint pd.p2)
  obtain ⟨l3⟩ := fmtPointTriple (transformPoint pd.p3)
  rfl

theorem isIdLine_materialLineOf (pd : Plane) : isIdLine (materialLineOf pd) = false := by
  unfold materialLineOf
  obtain ⟨t⟩ := pyUpper pd.texture
  rfl

theorem filter_sideBlock (cid : ℕ) (pd : Plane) :
    (sideBlock cid pd).filter isIdLine = [idLineAt 12 cid] := by
  have c1 : isIdLine "        side" = false := by decide
  have c2 : isIdLine "        \x7b" = false := by decide
  have c3 : isIdLine "            \x22uaxis\x22 \x22[1 0 0 0] 0.0625\x22" = false := by decide
  have c4 : isIdLine "            \x22vaxis\x22 \x22[0 1 0 0] 0.0625\x22" = false := by decide
  have c5 : isIdLine "            \x22rotation\x22 \x220\x22" = false := by decide
  have c6 : isIdLine "            \x22lightmapscale\x22 \x2216\x22" = false := by decide
  have c7 : isIdLine "            \x22smoothing_groups\x22 \x220\x22" = false := by decide
  have c8 : isIdLine "        \x7d" = false := by decide
  simp [sideBlock, List.filter_cons, isIdLine_idLineAt, isIdLine_planeLineOf,
    isIdLine_materialLineOf, c1, c2, c3, c4, c5, c6, c7, c8]

theorem filter_entityLines (eid : ℕ) :
    (entityLines eid).filter isIdLine = [idLineAt 4 eid] := by
  have c1 : isIdLine "entity" = false := by decide
  have c2 : isIdLine "\x7b" = false := by decide
  have c3 : isIdLine "    \x22classname\x22 \x22info_player_start\x22" = false := by decide
  have c4 : isIdLine "    \x22origin\x22 \x220 0 64\x22" = false := by decide
  have c5 : isIdLine "    \x22angles\x22 \x220 0 0\x22" = false := by decide
  have c6 : isIdLine "    \x22editor\x22" = false := by decide
  have c7 : isIdLine "    \x7b" = false := by decide
  have c8 : isIdLine "        \x22color\x22 \x22255 255 0\x22" = false := by decide
  have c9 : isIdLine "        \x22visgroupshown\x22 \x221\x22" = false := by decide
  have c10 : isIdLine "        \x22visgroupautoshown\x22 \x221\x22" = false := by decide
  have c11 : isIdLine "        \x22logicalpos\x22 \x22[0 0]\x22" = false := by decide
  have c12 : isIdLine "    \x7d" = false := by decide
  have c13 : isIdLine "\x7d" = false := by decide
  simp [entityLines, List.filter_cons, isIdLine_idLineAt,
    c1, c2, c3, c4, c5, c6, c7, c8, c9, c10, c11, c12, c13]

theorem sidesOf_spec (b : List Plane) (c : ℕ) :
    (sidesOf b c).1.filter isIdLine = (List.range' c b.length).map (idLineAt 12) ∧
      (sidesOf b c).2 = c + b.length := by
  induction b generalizing c with
  | nil => simp [sidesOf]
  | cons pd rest ih =>
    obtain ⟨ih1, ih2⟩ := ih (c + 1)
    refine ⟨?_, ?_⟩
    · show (sideBlock c pd ++ (sidesOf rest (c + 1)).1).filter isIdLine = _
      rw [List.filter_append, filter_sideBlock, ih1, List.length_cons, List.range'_succ]
      simp
    · show (sidesOf rest (c + 1)).2 = _
      rw [ih2, List.length_cons]
      omega

theorem solidOf_filter (b : Brush) (c : ℕ) :
    (solidOf b c).1.filter isIdLine =
      idLineAt 8 c :: (List.range' (c + 1) b.length).map (idLineAt 12) ∧
      (solidOf b c).2 = c + 1 + b.length := by
  obtain ⟨s1, s2⟩ := sidesOf_spec b (c + 1)
  have c1 : isIdLine "    solid" = false := by decide
  have c2 : isIdLine "    \x7b" = false := by decide
  have c3 : isIdLine "    \x7d" = false := by decide
  have hse : solidEditorLines.filter isIdLine = [] := by decide
  refine ⟨?_, ?_⟩
  · show (["    solid", "    \x7b", idLineAt 8 c] ++ (sidesOf b (c + 1)).1 ++
      solidEditorLines ++ ["    \x7d"]).filter isIdLine = _
    simp [List.filter_append, List.filter_cons, isIdLine_idLineAt, s1, c1, c2, c3, hse]
  · show (sidesOf b (c + 1)).2 = _
    exact s2

theorem solidsOf_spec (bs : List Brush) (c : ℕ) :
    (solidsOf bs c).1.filter isIdLine =
      ((specIdAlloc bs c).1.map fun p => idLineAt p.1 p.2) ∧
      (solidsOf bs c).2 = (specIdAlloc bs c).2 := by
  induction bs generalizing c with
  | nil => simp [solidsOf, specIdAlloc]
  | cons b bs ih =>
    obtain ⟨h1, h2⟩ := solidOf_filter b c
    obtain ⟨i1, i2⟩ := ih (c + 1 + b.length)
    refine ⟨?_, ?_⟩
    · show ((solidOf b c).1 ++ (solidsOf bs (solidOf b c).2).1).filter isIdLine = _
      rw [List.filter_append, h1, h2, i1]
      simp only [specIdAlloc, List.map_cons, List.map_append, List.map_map]
      simp [Function.comp]
    · show (solidsOf bs (solidOf b c).2).2 = _
      rw [h2, i2]
      rfl

theorem specIdAlloc_nums (bs : List Brush) (c : ℕ) :
    ((specIdAlloc bs c).1.map Prod.snd) ++ [(specIdAlloc bs c).2] =
      List.range' c ((bs.map fun b => 1 + b.length).sum + 1) := by
  induction bs generalizing c with
  | nil => simp [specIdAlloc]
  | cons b bs ih =>
    have ihh := ih (c + 1 + b.length)
    simp only [specIdAlloc, List.map_cons, List.map_append, List.map_map, List.sum_cons,
      List.cons_append, List.append_assoc]
    rw [ihh]
    rw [show (Prod.snd ∘ fun i => ((12 : ℕ), i)) = (id : ℕ → ℕ) from rfl, List.map_id]
    rw [List.range'_append_1]
    rw [← List.range'_succ]
    congr 1
    omega

/-! ## Claim theorems: id allocation (C3) -/

/-- C3: the id lines of a generated document are exactly the world id 1
followed by the ids the spec's allocation discipline predicts — counter
seeded at 2, one id per solid then one per side in file order, one final
id for the trailing entity — and those allocated ids are precisely the
consecutive integers from 2, so every allocation increments by exactly 1
and no id is reused. -/
theorem C3_id_allocation (bs : List Brush) :
    (vmfLines bs).filter isIdLine = specIdLines bs ∧
      ((specIdAlloc bs 2).1.map Prod.snd) ++ [(specIdAlloc bs 2).2] =
        List.range' 2 (specAllocCount bs) := by
  obtain ⟨f1, f2⟩ := solidsOf_spec bs 2
  refine ⟨?_, specIdAlloc_nums bs 2⟩
  show (versioninfoLines ++ worldOpenLines ++ (solidsOf bs 2).1 ++ worldEditorLines ++
      ["\x7d"] ++ entityLines (solidsOf bs 2).2 ++ hiddenLines).filter isIdLine = _
  rw [List.filter_append, List.filter_append, List.filter_append, List.filter_append,
    List.filter_append, List.filter_append, f1, f2, filter_entityLines,
    (by decide : versioninfoLines.filter isIdLine = []),
    (by decide : worldOpenLines.filter isIdLine = [idLineAt 4 1]),
    (by decide : worldEditorLines.filter isIdLine = []),
    (by decide : (["\x7d"] : List String).filter isIdLine = []),
    (by decide : hiddenLines.filter isIdLine = [])]
  show _ = idLineAt 4 1 :: ((specIdAlloc bs 2).1.map fun p => idLineAt p.1 p.2) ++
    [idLineAt 4 (specIdAlloc bs 2).2]
  simp

/-! ## Claim theorems: the coordinate transform (C2) -/

theorem scale_factor_val : SCALE_FACTOR = 3 / 4 := by
  unfold SCALE_FACTOR
  rw [Rat.mkRat_eq_divInt, Rat.divInt_eq_div]
  norm_num

theorem digitChar_ne_dot (d : ℕ) : (digitChar d != '.') = true := by
  have key : ∀ k, k < 10 → (Char.ofNat (48 + k) != '.') = true := by decide
  exact key (d % 10) (Nat.mod_lt d (by norm_num))

theorem fracDigitCount_concat (a b : String) (m : ℕ) :
    fracDigitCount (a ++ b ++ "." ++ String.mk (sixFracDigits m)) = 6 := by
  obtain ⟨as⟩ := a
  obtain ⟨bs⟩ := b
  unfold fracDigitCount
  have hd : ((String.mk as ++ String.mk bs ++ "." ++
      String.mk (sixFracDigits m)).data).reverse =
      (sixFracDigits m).reverse ++ '.' :: (bs.reverse ++ as.reverse) := by
    simp [str_data_append]
  rw [hd, List.takeWhile_append_of_pos]
  · simp [List.takeWhile_cons, sixFracDigits]
  · intro x hx
    rw [List.mem_reverse] at hx
    simp only [sixFracDigits, List.mem_cons, List.not_mem_nil, or_false] at hx
    rcases hx with rfl | rfl | rfl | rfl | rfl | rfl <;> exact digitChar_ne_dot _

theorem fmt6_six_decimals (q : ℚ) : fracDigitCount (fmt6 q) = 6 :=
  fracDigitCount_concat (if q.num < 0 then "-" else "")
    (natStr (rhe6 q.num.natAbs q.den / 1000000)) (rhe6 q.num.natAbs q.den % 1000000)

theorem mem_sidesOf (pd : Plane) : ∀ (b : List Plane), pd ∈ b → ∀ c : ℕ,
    planeLineOf pd ∈ (sidesOf b c).1 := by
  intro b
  induction b with
  | nil => intro hb; cases hb
  | cons q rest ih =>
    intro hb c
    show planeLineOf pd ∈ sideBlock c q ++ (sidesOf rest (c + 1)).1
    cases hb with
    | head => exact List.mem_append.mpr (Or.inl (by simp [sideBlock]))
    | tail _ hb2 => exact List.mem_append.mpr (Or.inr (ih hb2 (c + 1)))

theorem mem_solidsOf (pd : Plane) (b : Brush) : ∀ (bs : List Brush), b ∈ bs → pd ∈ b →
    ∀ c : ℕ, planeLineOf pd ∈ (solidsOf bs c).1 := by
  intro bs
  induction bs with
  | nil => intro hb; cases hb
  | cons b2 rest ih =>
    intro hb hpd c
    show planeLineOf pd ∈ (solidOf b2 c).1 ++ (solidsOf rest (solidOf b2 c).2).1
    cases hb with
    | head =>
      refine List.mem_append.mpr (Or.inl ?_)
      show planeLineOf pd ∈ ["    solid", "    \x7b", idLineAt 8 c] ++
        (sidesOf b (c + 1)).1 ++ solidEditorLines ++ ["    \x7d"]
      exact List.mem_append.mpr (Or.inl (List.mem_append.mpr (Or.inl
        (List.mem_append.mpr (Or.inr (mem_sidesOf pd b hpd (c + 1)))))))
    | tail _ hb2 =>
      exact List.mem_append.mpr (Or.inr (ih hb2 hpd ((solidOf b2 c).2)))

/-- C2: every plane of every brush handed to the generator contributes its
side's `"plane"` line built from exactly `(x*S, z*S, -y*S)` per point with
the single global `SCALE_FACTOR = 0.75 = 3/4`, serialized with exactly six
decimal places; in particular `(-128, -128, 0)` is emitted as
`(-96.000000 0.000000 96.000000)`. -/
theorem C2_transform_and_format :
    (∀ (bs : List Brush) (b : Brush) (pd : Plane), b ∈ bs → pd ∈ b →
        planeLineOf pd ∈ vmfLines bs) ∧
    (∀ p : Point3, transformPoint p = ⟨p.x * (3 / 4), p.z * (3 / 4), -p.y * (3 / 4)⟩) ∧
    SCALE_FACTOR = 3 / 4 ∧
    (∀ q : ℚ, fracDigitCount (fmt6 q) = 6) ∧
    fmtPointTriple (transformPoint ⟨-128, -128, 0⟩) = "(-96.000000 0.000000 96.000000)" := by
  refine ⟨?_, ?_, scale_factor_val, fmt6_six_decimals, ?_⟩
  · intro bs b pd hb hpd
    show planeLineOf pd ∈ versioninfoLines ++ worldOpenLines ++ (solidsOf bs 2).1 ++
      worldEditorLines ++ ["\x7d"] ++ entityLines (solidsOf bs 2).2 ++ hiddenLines
    have hm := mem_solidsOf pd b bs hb hpd 2
    simp only [List.mem_append]
    tauto
  · intro p
    unfold transformPoint
    rw [scale_factor_val]
  · have ht : transformPoint ⟨-128, -128, 0⟩ = ⟨-96, 0, 96⟩ := by
      unfold transformPoint
      rw [scale_factor_val]
      simp only [Point3.mk.injEq]
      refine ⟨by norm_num, by norm_num, by norm_num⟩
    rw [ht]
    decide

theorem C2_witness :
    planeLineOf ⟨⟨-128, -128, 0⟩, ⟨128, -128, 0⟩, ⟨-128, 128, 0⟩, "wall_tex"⟩ ∈
      vmfLines [[⟨⟨-128, -128, 0⟩, ⟨128, -128, 0⟩, ⟨-128, 128, 0⟩, "wall_tex"⟩]] :=
  C2_transform_and_format.1
    [[⟨⟨-128, -128, 0⟩, ⟨128, -128, 0⟩, ⟨-128, 128, 0⟩, "wall_tex"⟩]]
    [⟨⟨-128, -128, 0⟩, ⟨128, -128, 0⟩, ⟨-128, 128, 0⟩, "wall_tex"⟩]
    ⟨⟨-128, -128, 0⟩, ⟨128, -128, 0⟩, ⟨-128, 128, 0⟩, "wall_tex"⟩
    (by simp) (by simp)

/-! ## Claim theorems: batch independence (C10) -/

theorem convertFold_general (files : List (List String)) (acc : List (Option String)) :
    files.foldl (fun a f => a ++ [unitOutput f]) acc = acc ++ files.map unitOutput := by
  induction files generalizing acc with
  | nil => simp
  | cons f fs ih =>
    show fs.foldl (fun a g => a ++ [unitOutput g]) (acc ++ [unitOutput f]) = _
    rw [ih (acc ++ [unitOutput f])]
    simp

/-- C10: the batch loop's output for each input file is exactly the output
the pure per-file pipeline produces for that file alone, in either order —
no brush data, accumulator or id-counter state flows between units of
work, because the core keeps no state across invocations. -/
theorem C10_batch_independent (A B : List String) :
    convertFold [A, B] = [unitOutput A, unitOutput B] ∧
    convertFold [B, A] = [unitOutput B, unitOutput A] ∧
    convertFold [A] = [unitOutput A] ∧
    ∀ files : List (List String), convertFold files = files.map unitOutput := by
  have hg : ∀ files : List (List String), convertFold files = files.map unitOutput :=
    fun files => by
      unfold convertFold
      rw [convertFold_general files []]
      simp
  exact ⟨by rw [hg]; simp, by rw [hg]; simp, by rw [hg]; simp, hg⟩
